import Mathlib

/-!
Shallow embedding of the pipeline supervisor of `MIT1/backend/agents/supervisor_agent.py`
(`SupervisorAgent`): the retry/timeout executor `_execute_with_retry`, the stage
orchestration sequence `supervise_research_pipeline` with its per-stage fallbacks,
the per-run metrics / agent-status / process-wide error-history bookkeeping, and the
health projection `get_system_health`.

Modelling conventions:
* An asynchronous stage operation is embedded as a function `Nat → AttemptOutcome α`
  giving, for each 0-indexed attempt, whether that attempt returns a value (`ok`),
  raises an exception with a message (`err`), or exceeds the per-attempt timeout
  (`timeout`).  Real wall-clock waiting is not modelled; instead the executor's
  trace records the nominal duration of every `asyncio.sleep` it performs.
* Durations are natural numbers (the claims compare delay formulas, not real time);
  health averages use `ℚ` because Python computes them with `/`.
* Python dicts that the supervisor only threads through opaquely are embedded as
  structures holding exactly the fields the supervisor itself reads or writes.
-/

/-- Outcome of a single attempt of a stage operation: the `await asyncio.wait_for`
either returns a value, raises an ordinary exception (with message), or raises
`asyncio.TimeoutError`. -/
inductive AttemptOutcome (α : Type) where
  | ok (a : α)
  | err (msg : String)
  | timeout
deriving DecidableEq, Repr

/-- The exception that finally escapes `_execute_with_retry` when all attempts fail:
after a final timeout it raises `Exception(f"{stage} timed out after {max_retries+1} attempts")`
(carrying the stage name and the attempt count), while after a final ordinary error the
bare `raise` re-raises the original exception message unchanged. -/
inductive RetryFailure where
  | timedOutExhausted (stage : String) (attempts : Nat)
  | reraised (msg : String)
deriving DecidableEq, Repr

/-- Result of the whole retry loop: either a value or an escaping exception. -/
inductive RetryOutcome (α : Type) where
  | ok (a : α)
  | fail (f : RetryFailure)
deriving DecidableEq, Repr

/-- One entry appended by `_record_error` into `pipeline_metrics[pipeline_id]['errors']`:
`"Timeout on attempt {attempt+1}"` for a timeout, `"Attempt {attempt+1}: {msg}"` for an
ordinary exception.  The attempt index is kept 0-indexed here; the stage name is the
`stage` field of the dict. -/
inductive RecordedError where
  | timeoutAt (stage : String) (attempt : Nat)
  | errAt (stage : String) (attempt : Nat) (msg : String)
deriving DecidableEq, Repr

/-- Full observable trace of one `_execute_with_retry` call: the final outcome, how many
times the operation was invoked, the sleeps performed between attempts (in order, each
`retry_delay * (attempt + 1)` as written in the source), and the `_record_error` calls
made (in order). -/
structure RetryTrace (α : Type) where
  result : RetryOutcome α
  attempts : Nat
  delays : List Nat
  recorded : List RecordedError
deriving DecidableEq, Repr

/-- The body of the `for attempt in range(max_retries + 1)` loop of
`_execute_with_retry`, from attempt index `attempt` with `remaining` further attempts
allowed after the current one (`remaining = max_retries - attempt` at the top call, so
`remaining = 0` exactly when `attempt < max_retries` is false).  On a failed attempt
the error is recorded first; then, if attempts remain, the executor sleeps
`retry_delay * (attempt + 1)` and continues; otherwise it raises: the timeout branch
raises the exhaustion exception naming the stage and `max_retries + 1` (equal to
`attempt + 1` at that point), the error branch re-raises the original exception. -/
def retryGo {α : Type} (d : Nat) (stage : String) (op : Nat → AttemptOutcome α)
    (attempt : Nat) : Nat → RetryTrace α
  | 0 =>
    match op attempt with
    | .ok a => ⟨.ok a, 1, [], []⟩
    | .timeout => ⟨.fail (.timedOutExhausted stage (attempt + 1)), 1, [], [.timeoutAt stage attempt]⟩
    | .err m => ⟨.fail (.reraised m), 1, [], [.errAt stage attempt m]⟩
  | r + 1 =>
    match op attempt with
    | .ok a => ⟨.ok a, 1, [], []⟩
    | .timeout =>
      let rest := retryGo d stage op (attempt + 1) r
      ⟨rest.result, rest.attempts + 1, d * (attempt + 1) :: rest.delays,
        .timeoutAt stage attempt :: rest.recorded⟩
    | .err m =>
      let rest := retryGo d stage op (attempt + 1) r
      ⟨rest.result, rest.attempts + 1, d * (attempt + 1) :: rest.delays,
        .errAt stage attempt m :: rest.recorded⟩

/-- `SupervisorAgent._execute_with_retry` with policy `max_retries = maxRetries`,
`retry_delay = d` (the per-attempt `timeout_seconds` bound is absorbed into the
`timeout` attempt outcome). -/
def executeWithRetry {α : Type} (maxRetries d : Nat) (stage : String)
    (op : Nat → AttemptOutcome α) : RetryTrace α :=
  retryGo d stage op 0 maxRetries

/-- Whether the retry loop returned a value (rather than raising). -/
def RetryOutcome.isOk {α : Type} : RetryOutcome α → Bool
  | .ok _ => true
  | .fail _ => false

/-- A paper record as threaded through the supervisor.  The supervisor itself only
tests the list for emptiness, counts it, and (in reference formatting) reads fields
of the first 15 entries; only the title participates in any claim here. -/
structure Paper where
  title : String
deriving DecidableEq, Repr

/-- The summaries structure, with the fields the supervisor's fallback constructs
(`individual_summaries`, `thematic_summary`, `key_findings`, `methodology_summary`). -/
structure Summaries where
  individual_summaries : List String
  thematic_summary : String
  key_findings : List String
  methodology_summary : List (String × String)
deriving DecidableEq, Repr

/-- The minimal summaries returned by `_supervise_summarization`'s `except` branch. -/
def fallbackSummaries (nPapers : Nat) : Summaries :=
  ⟨[], "Analysis of " ++ toString nPapers ++ " papers on the research topic.", [], []⟩

/-- The citations structure, with the fields of `_supervise_citation_generation`'s
fallback dict. -/
structure Citations where
  formatted_citations : List (String × String)
  in_text_citations : List String
  bibliography : List String
  citation_network : List (String × List String)
deriving DecidableEq, Repr

/-- The minimal citations returned by `_supervise_citation_generation`'s `except` branch. -/
def fallbackCitations : Citations := ⟨[], [], [], []⟩

/-- A section value of `draft['sections']`: a dict carrying a `'content'` key, a bare
string, or anything else (which the replacement loop leaves untouched). -/
inductive SectionContent where
  | withContent (content : String)
  | plain (s : String)
  | other
deriving DecidableEq, Repr

/-- Metadata fields of a draft that the supervisor's fallback writes (the generation
date, real wall-clock time, is not modelled). -/
structure DraftMeta where
  topic : String
  word_count : Nat
deriving DecidableEq, Repr

/-- A draft document: `abstract = none` models a dict without the key. -/
structure Draft where
  title : String
  abstract : Option String
  sections : List (String × SectionContent)
  metadata : DraftMeta
deriving DecidableEq, Repr

/-- The minimal draft returned by `_supervise_paper_generation`'s `except` branch. -/
def fallbackDraft (query : String) : Draft :=
  ⟨query ++ ": Research Analysis",
   some ("This paper analyzes " ++ query ++ " based on available research literature."),
   [], ⟨query, 0⟩⟩

/-- The analytics structure, flattened to the fields of `_supervise_analytics`'s
fallback dict that are not fixed constants of nested sub-dicts needed by no claim. -/
structure Analytics where
  word_count : Nat
  section_count : Nat
  keywords : List String
  total_sources : Nat
  recommendations : List String
deriving DecidableEq, Repr

/-- The minimal analytics returned by `_supervise_analytics`'s `except` branch. -/
def fallbackAnalytics (nPapers : Nat) : Analytics :=
  ⟨0, 0, [], nPapers,
   ["Pipeline completed with supervisor monitoring",
    "Analyzed " ++ toString nPapers ++ " papers successfully"]⟩

/-- One reference entry produced by `_supervise_reference_formatting`; only the 1-based
number and title matter to the claims. -/
structure Reference where
  number : Nat
  title : String
deriving DecidableEq, Repr

/-- One call of `citation_agent.replace_citation_placeholders` on a single section
value: a dict with `'content'` or a bare string goes through the replacer (which may
raise, modelled by `none`); any other value is left alone without calling it. -/
def replaceSectionContent (rep : String → Option String) :
    SectionContent → Option SectionContent
  | .withContent c => (rep c).map .withContent
  | .plain s => (rep s).map .plain
  | .other => some .other

/-- The section loop of `_supervise_citation_replacement`.  The Python code mutates
`draft['sections']` in place while iterating; `done` is the already-processed (and
possibly rewritten) prefix.  When the replacer raises, the `except` branch returns the
draft in its current, partially mutated state. -/
def replaceSectionsGo (rep : String → Option String) (d : Draft) :
    List (String × SectionContent) → List (String × SectionContent) → Draft
  | done, [] => { d with sections := done }
  | done, (name, sc) :: rest =>
    match replaceSectionContent rep sc with
    | none => { d with sections := done ++ (name, sc) :: rest }
    | some sc' => replaceSectionsGo rep d (done ++ [(name, sc')]) rest

/-- `SupervisorAgent._supervise_citation_replacement`: first rewrite the abstract when
the key is present and truthy (a failure there leaves the draft untouched, since
nothing has been assigned yet), then rewrite each section in order; any raise returns
the draft as mutated so far. -/
def superviseCitationReplacement (rep : String → Option String) (d : Draft) : Draft :=
  match d.abstract with
  | some a =>
    if a = "" then replaceSectionsGo rep d [] d.sections
    else
      match rep a with
      | none => d
      | some a' =>
        let d1 : Draft := { d with abstract := some a' }
        replaceSectionsGo rep d1 [] d1.sections
  | none => replaceSectionsGo rep d [] d.sections

/-- The per-run dict `pipeline_metrics[pipeline_id]` (the `start_time` field, real
wall-clock time, is not modelled; `total_time = none` means the key is absent, as on
every run that did not reach the success epilogue). -/
structure PipelineMetrics where
  query : String
  stages_completed : List String
  errors : List RecordedError
  retries : Nat
  total_papers : Nat
  total_time : Option Nat
deriving DecidableEq, Repr

/-- One record appended to the process-wide `self.error_history` list (only the
top-level `except` of `supervise_research_pipeline` does this). -/
structure HistoryRecord where
  pipeline_id : String
  error : String
  stage : String
  duration : Nat
deriving DecidableEq, Repr

/-- The message of the exception escaping `_execute_with_retry`. -/
def failureMessage : RetryFailure → String
  | .timedOutExhausted stage attempts =>
    stage ++ " timed out after " ++ toString attempts ++ " attempts"
  | .reraised m => m

/-- `_get_current_stage`: last completed stage, or `"initialization"`. -/
def currentStage (m : PipelineMetrics) : String :=
  match m.stages_completed.getLast? with
  | some s => s
  | none => "initialization"

/-- Dict-style update of `self.agent_status[pipeline_id]` (overwrite the stage's entry
or append a new one). -/
def setStatus : List (String × String) → String → String → List (String × String)
  | [], stage, v => [(stage, v)]
  | (s, w) :: rest, stage, v =>
    if s = stage then (s, v) :: rest else (s, w) :: setStatus rest stage v

/-- Dict-style lookup in an agent-status map. -/
def getStatus : List (String × String) → String → Option String
  | [], _ => none
  | (s, w) :: rest, stage => if s = stage then some w else getStatus rest stage

/-- The mutable state a single run threads through its stages: its metrics dict, its
slice of `agent_status`, plus an instrumentation trace of the stages invoked in order
(retrieval, summarization, citation, generation, replacement, analytics, references). -/
structure RunState where
  metrics : PipelineMetrics
  status : List (String × String)
  invoked : List String
deriving DecidableEq, Repr

/-- The environment of one run: the retry policy read from `self.retry_config`, the
run's total elapsed duration (abstract), and the behavior of each collaborator
operation per attempt. -/
structure Env where
  maxRetries : Nat
  retryDelay : Nat
  duration : Nat
  retrieval : Nat → AttemptOutcome (List Paper)
  summarization : Nat → AttemptOutcome Summaries
  citation : Nat → AttemptOutcome Citations
  generation : Nat → AttemptOutcome Draft
  replacement : String → Option String
  analytics : Nat → AttemptOutcome Analytics

/-- Common shape of `_supervise_summarization` / `_supervise_citation_generation` /
`_supervise_paper_generation` / `_supervise_analytics`: mark the stage running, run the
operation under the retry executor (accumulating its `_record_error` records into the
run's metrics), then either mark completed and append the stage to `stages_completed`,
or mark failed and substitute the fallback value. -/
def retriedStage {α : Type} (maxRetries d : Nat) (name : String)
    (op : Nat → AttemptOutcome α) (fallback : α) (rs : RunState) : α × RunState :=
  let rs1 : RunState :=
    { rs with invoked := rs.invoked ++ [name], status := setStatus rs.status name "running" }
  let r := executeWithRetry maxRetries d name op
  let rs2 : RunState :=
    { rs1 with metrics := { rs1.metrics with errors := rs1.metrics.errors ++ r.recorded } }
  match r.result with
  | .ok a =>
    (a, { rs2 with
            status := setStatus rs2.status name "completed",
            metrics := { rs2.metrics with
              stages_completed := rs2.metrics.stages_completed ++ [name] } })
  | .fail _ => (fallback, { rs2 with status := setStatus rs2.status name "failed" })

/-- `SupervisorAgent._supervise_retrieval`: like a retried stage, but an empty result
list raises `"No papers retrieved from any source"`, and any failure marks the stage
failed and propagates fatally instead of substituting a fallback. -/
def retrievalStep (env : Env) (rs : RunState) : Except String (List Paper) × RunState :=
  let rs1 : RunState :=
    { rs with invoked := rs.invoked ++ ["retrieval"],
              status := setStatus rs.status "retrieval" "running" }
  let r := executeWithRetry env.maxRetries env.retryDelay "retrieval" env.retrieval
  let rs2 : RunState :=
    { rs1 with metrics := { rs1.metrics with errors := rs1.metrics.errors ++ r.recorded } }
  match r.result with
  | .ok ps =>
    if ps.isEmpty then
      (.error "No papers retrieved from any source",
       { rs2 with status := setStatus rs2.status "retrieval" "failed" })
    else
      (.ok ps, { rs2 with
                   status := setStatus rs2.status "retrieval" "completed",
                   metrics := { rs2.metrics with
                     stages_completed := rs2.metrics.stages_completed ++ ["retrieval"] } })
  | .fail f =>
    (.error (failureMessage f),
     { rs2 with status := setStatus rs2.status "retrieval" "failed" })

/-- `SupervisorAgent._supervise_citation_replacement` as a pipeline step: it touches
neither `agent_status` nor `stages_completed`. -/
def replacementStep (env : Env) (draft : Draft) (rs : RunState) : Draft × RunState :=
  (superviseCitationReplacement env.replacement draft,
   { rs with invoked := rs.invoked ++ ["replacement"] })

/-- `SupervisorAgent._supervise_reference_formatting`: one entry per paper among the
first 15, numbered from 1; it touches neither `agent_status` nor `stages_completed`. -/
def referencesStep (papers : List Paper) (rs : RunState) : List Reference × RunState :=
  ((papers.take 15).enum.map (fun p => ⟨p.1 + 1, p.2.title⟩),
   { rs with invoked := rs.invoked ++ ["references"] })

/-- What `supervise_research_pipeline` hands back to its caller: the success dict or
the structured error dict (both carry the pipeline id and the query). -/
inductive PipelineResult where
  | success (pid query : String) (papers : List Paper) (summaries : Summaries)
      (citations : Citations) (draft : Draft) (analytics : Analytics)
      (references : List Reference)
  | fatal (pid query msg : String)
deriving DecidableEq, Repr

/-- The summaries field of a success result. -/
def PipelineResult.summariesOf : PipelineResult → Option Summaries
  | .success _ _ _ s _ _ _ _ => some s
  | .fatal _ _ _ => none

/-- Whether the result dict has `status = 'success'`. -/
def PipelineResult.isSuccess : PipelineResult → Bool
  | .success _ _ _ _ _ _ _ _ => true
  | .fatal _ _ _ => false

/-- The per-run dict as initialized at the top of `supervise_research_pipeline`. -/
def initMetrics (query : String) : PipelineMetrics := ⟨query, [], [], 0, 0, none⟩

/-- Everything one call of `supervise_research_pipeline` produces: the returned value,
the run's final metrics dict and agent-status slice, the records it appended to the
process-wide `error_history`, and the instrumentation trace of invoked stages. -/
structure RunResult where
  result : PipelineResult
  metrics : PipelineMetrics
  status : List (String × String)
  historyAppend : List HistoryRecord
  invoked : List String

/-- `SupervisorAgent.supervise_research_pipeline`: the straight-line stage sequence.
A retrieval failure (exhausted retries or empty list) propagates to the top-level
`except`, which appends one record to `error_history` and returns the error dict; on
success the epilogue records `total_time` and `total_papers` and returns the success
dict. -/
def runPipeline (env : Env) (pid query : String) : RunResult :=
  let rs0 : RunState := ⟨initMetrics query, [], []⟩
  match retrievalStep env rs0 with
  | (.error msg, rs) =>
    ⟨.fatal pid query msg, rs.metrics, rs.status,
     [⟨pid, msg, currentStage rs.metrics, env.duration⟩], rs.invoked⟩
  | (.ok papers, rs1) =>
    let s2 := retriedStage env.maxRetries env.retryDelay "summarization" env.summarization
        (fallbackSummaries papers.length) rs1
    let s3 := retriedStage env.maxRetries env.retryDelay "citation" env.citation
        fallbackCitations s2.2
    let s4 := retriedStage env.maxRetries env.retryDelay "generation" env.generation
        (fallbackDraft query) s3.2
    let s5 := replacementStep env s4.1 s4.2
    let s6 := retriedStage env.maxRetries env.retryDelay "analytics" env.analytics
        (fallbackAnalytics papers.length) s5.2
    let s7 := referencesStep papers s6.2
    let mFinal : PipelineMetrics :=
      { s7.2.metrics with total_time := some env.duration, total_papers := papers.length }
    ⟨.success pid query papers s2.1 s3.1 s5.1 s6.1 s7.1, mFinal, s7.2.status, [],
     s7.2.invoked⟩

/-- The supervisor's process-wide mutable state: `self.pipeline_metrics`,
`self.agent_status` (both keyed by pipeline id) and `self.error_history`. -/
structure SupervisorState where
  pipeline_metrics : List (String × PipelineMetrics)
  agent_status : List (String × List (String × String))
  error_history : List HistoryRecord

/-- Fold one finished run into the supervisor's process-wide state. -/
def supervisorAfterRun (st : SupervisorState) (pid : String) (rr : RunResult) :
    SupervisorState :=
  ⟨st.pipeline_metrics ++ [(pid, rr.metrics)],
   st.agent_status ++ [(pid, rr.status)],
   st.error_history ++ rr.historyAppend⟩

/-- The dict returned by `get_system_health`. -/
structure Health where
  total_pipelines : Nat
  successful_pipelines : Nat
  success_rate : ℚ
  total_errors : Nat
  active_pipelines : Nat
  average_processing_time : ℚ
deriving DecidableEq, Repr

/-- `SupervisorAgent.get_system_health`: counts over `pipeline_metrics.values()`, the
length of `error_history`, and `sum(p.get('total_time', 0) ...) / total_pipelines`
(0 when there are no pipelines). -/
def getSystemHealth (st : SupervisorState) : Health :=
  let ms := st.pipeline_metrics.map Prod.snd
  let total := ms.length
  let succ := (ms.filter (fun m => m.errors.length == 0)).length
  ⟨total, succ,
   if total > 0 then (succ : ℚ) / (total : ℚ) else 0,
   st.error_history.length,
   (st.agent_status.filter (fun p => p.2.any (fun s => s.2 == "running"))).length,
   if total > 0 then ((ms.map (fun m => ((m.total_time.getD 0 : Nat) : ℚ))).sum) / (total : ℚ)
   else 0⟩

/-- Modelled from the spec's words for comparison with `getSystemHealth` (claim about
the average): the "average total duration across completed runs (0 if none completed)",
where a completed run is one with a recorded total duration. -/
def specAverageOverCompletedRuns (st : SupervisorState) : ℚ :=
  let ds : List Nat := (st.pipeline_metrics.map Prod.snd).filterMap (fun m => m.total_time)
  if ds.length > 0 then ((ds.map (fun d : Nat => (d : ℚ))).sum) / (ds.length : ℚ) else 0

/-! Concrete sample data used to instantiate the theorems below. -/

/-- Three well-formed papers, as a retrieval agent might return. -/
def samplePapers : List Paper := [⟨"Paper One"⟩, ⟨"Paper Two"⟩, ⟨"Paper Three"⟩]

/-- A non-fallback summaries value. -/
def sampleSummaries : Summaries := ⟨["s1"], "theme", ["finding"], [("m", "x")]⟩

/-- A non-fallback citations value. -/
def sampleCitations : Citations := ⟨[("1", "c1")], ["[1]"], ["b1"], [("p1", [])]⟩

/-- A draft with a truthy abstract and one plain-string section. -/
def sampleDraft : Draft := ⟨"Title", some "ABS", [("introduction", .plain "SEC")], ⟨"q", 100⟩⟩

/-- A non-fallback analytics value. -/
def sampleAnalytics : Analytics := ⟨100, 1, ["k"], 3, ["r"]⟩

/-- An environment (default policy `max_retries = 3`, `retry_delay = 1`) in which every
stage succeeds on its first attempt and citation replacement is the identity. -/
def envAllOk : Env :=
  ⟨3, 1, 7,
   fun _ => .ok samplePapers,
   fun _ => .ok sampleSummaries,
   fun _ => .ok sampleCitations,
   fun _ => .ok sampleDraft,
   fun s => some s,
   fun _ => .ok sampleAnalytics⟩

/-- Like `envAllOk`, but every retrieval attempt times out. -/
def envRetrievalTimeout : Env := { envAllOk with retrieval := fun _ => .timeout }

/-- Like `envAllOk`, but every summarization attempt raises. -/
def envSummFail : Env := { envAllOk with summarization := fun _ => .err "llm down" }

/-- Like `envAllOk`, but the first summarization attempt raises and the second
succeeds, so the run as a whole succeeds with one failed attempt recorded. -/
def envSummErrOnce : Env :=
  { envAllOk with
    summarization := fun k => if k = 0 then .err "llm overload" else .ok sampleSummaries }

/-- A replacement collaborator that succeeds on the abstract text `"ABS"` but raises on
the section text `"SEC"`. -/
def repFailOnSection : String → Option String :=
  fun s => if s = "SEC" then none else some (s ++ " [1]")

/-- A replacement collaborator that raises on every text. -/
def repAlwaysFail : String → Option String := fun _ => none

/-- The empty process-wide supervisor state. -/
def emptySupervisorState : SupervisorState := ⟨[], [], []⟩

/-- A supervisor state holding one completed run (duration 10) and one aborted run
(no recorded duration). -/
def stMixedRuns : SupervisorState :=
  ⟨[("p1", ⟨"q1", ["retrieval"], [], 0, 3, some 10⟩),
    ("p2", ⟨"q2", [], [], 0, 0, none⟩)], [], []⟩

/-- A supervisor state in which every run completed (one run, duration 10). -/
def stAllCompleted : SupervisorState :=
  ⟨[("p1", ⟨"q1", ["retrieval"], [], 0, 3, some 10⟩)], [], []⟩

/-! Helper lemmas about the retry executor and the stage steps. -/

/-- For an operation with no successful attempt, the loop from `attempt` with `r`
further attempts allowed performs `r + 1` invocations, never returns a value, and the
escaping exception is decided by the final attempt (index `attempt + r`): a timeout
raises the exhaustion exception naming the stage and the attempt count, an ordinary
error is re-raised verbatim. -/
theorem retryGo_never_ok {α : Type} (d : Nat) (stage : String)
    (op : Nat → AttemptOutcome α) (h : ∀ k a, op k ≠ .ok a) :
    ∀ (r attempt : Nat),
      (retryGo d stage op attempt r).attempts = r + 1
      ∧ (∀ a, (retryGo d stage op attempt r).result ≠ .ok a)
      ∧ (op (attempt + r) = .timeout →
          (retryGo d stage op attempt r).result
            = .fail (.timedOutExhausted stage (attempt + r + 1)))
      ∧ (∀ m, op (attempt + r) = .err m →
          (retryGo d stage op attempt r).result = .fail (.reraised m)) := by
  intro r
  induction r with
  | zero =>
    intro attempt
    rcases hop : op attempt with a | m | _
    · exact absurd hop (h attempt a)
    · simp [retryGo, hop]
    · simp [retryGo, hop]
  | succ r ih =>
    intro attempt
    have harr : attempt + (r + 1) = (attempt + 1) + r := by omega
    rcases hop : op attempt with a | m | _
    · exact absurd hop (h attempt a)
    · have hi := ih (attempt + 1)
      refine ⟨?_, ?_, ?_, ?_⟩
      · simp [retryGo, hop, hi.1]
      · intro a; simp [retryGo, hop]; exact hi.2.1 a
      · intro ht
        rw [harr] at ht
        have := hi.2.2.1 ht
        simp [retryGo, hop, this]
        omega
      · intro m' hm'
        rw [harr] at hm'
        have := hi.2.2.2 m' hm'
        simp [retryGo, hop, this]
    · have hi := ih (attempt + 1)
      refine ⟨?_, ?_, ?_, ?_⟩
      · simp [retryGo, hop, hi.1]
      · intro a; simp [retryGo, hop]; exact hi.2.1 a
      · intro ht
        rw [harr] at ht
        have := hi.2.2.1 ht
        simp [retryGo, hop, this]
        omega
      · intro m' hm'
        rw [harr] at hm'
        have := hi.2.2.2 m' hm'
        simp [retryGo, hop, this]

/-- Every failed attempt records exactly one error: the number of `_record_error`
calls plus one for a returned value equals the number of invocations. -/
theorem retryGo_recorded_count {α : Type} (d : Nat) (stage : String)
    (op : Nat → AttemptOutcome α) :
    ∀ (r attempt : Nat),
      (retryGo d stage op attempt r).recorded.length
        + (if (retryGo d stage op attempt r).result.isOk then 1 else 0)
      = (retryGo d stage op attempt r).attempts := by
  intro r
  induction r with
  | zero =>
    intro attempt
    rcases hop : op attempt with a | m | _ <;>
      simp [retryGo, hop, RetryOutcome.isOk]
  | succ r ih =>
    intro attempt
    rcases hop : op attempt with a | m | _
    · simp [retryGo, hop, RetryOutcome.isOk]
    · have hi := ih (attempt + 1)
      simp [retryGo, hop]
      omega
    · have hi := ih (attempt + 1)
      simp [retryGo, hop]
      omega

/-- Looking up a stage right after setting it yields the value just set. -/
theorem getStatus_setStatus (l : List (String × String)) (s v : String) :
    getStatus (setStatus l s v) s = some v := by
  induction l with
  | nil => simp [setStatus, getStatus]
  | cons hd tl ih =>
    obtain ⟨a, b⟩ := hd
    by_cases h : a = s <;> simp [setStatus, getStatus, h, ih]

/-- A retried stage always appends its own name to the invocation trace. -/
theorem retriedStage_invoked {α : Type} (mr d : Nat) (name : String)
    (op : Nat → AttemptOutcome α) (fb : α) (rs : RunState) :
    ((retriedStage mr d name op fb rs).2).invoked = rs.invoked ++ [name] := by
  rcases hres : (executeWithRetry mr d name op).result with a | f <;>
    simp [retriedStage, hres]

/-- A retried stage never touches the run's retry counter. -/
theorem retriedStage_retries {α : Type} (mr d : Nat) (name : String)
    (op : Nat → AttemptOutcome α) (fb : α) (rs : RunState) :
    ((retriedStage mr d name op fb rs).2).metrics.retries = rs.metrics.retries := by
  rcases hres : (executeWithRetry mr d name op).result with a | f <;>
    simp [retriedStage, hres]

/-- A retried stage appends exactly the executor's recorded errors to the run's
error list. -/
theorem retriedStage_errors {α : Type} (mr d : Nat) (name : String)
    (op : Nat → AttemptOutcome α) (fb : α) (rs : RunState) :
    ((retriedStage mr d name op fb rs).2).metrics.errors
      = rs.metrics.errors ++ (executeWithRetry mr d name op).recorded := by
  rcases hres : (executeWithRetry mr d name op).result with a | f <;>
    simp [retriedStage, hres]

/-- On retry success a retried stage appends its name to `stages_completed`. -/
theorem retriedStage_sc_of_ok {α : Type} (mr d : Nat) (name : String)
    (op : Nat → AttemptOutcome α) (fb : α) (rs : RunState) (a : α)
    (hres : (executeWithRetry mr d name op).result = .ok a) :
    ((retriedStage mr d name op fb rs).2).metrics.stages_completed
      = rs.metrics.stages_completed ++ [name] := by
  simp [retriedStage, hres]

/-- On retry exhaustion a retried stage leaves `stages_completed` unchanged. -/
theorem retriedStage_sc_of_fail {α : Type} (mr d : Nat) (name : String)
    (op : Nat → AttemptOutcome α) (fb : α) (rs : RunState) (f : RetryFailure)
    (hres : (executeWithRetry mr d name op).result = .fail f) :
    ((retriedStage mr d name op fb rs).2).metrics.stages_completed
      = rs.metrics.stages_completed := by
  simp [retriedStage, hres]

/-- On retry success a retried stage returns the operation's value. -/
theorem retriedStage_fst_of_ok {α : Type} (mr d : Nat) (name : String)
    (op : Nat → AttemptOutcome α) (fb : α) (rs : RunState) (a : α)
    (hres : (executeWithRetry mr d name op).result = .ok a) :
    (retriedStage mr d name op fb rs).1 = a := by
  simp [retriedStage, hres]

/-- On retry exhaustion a retried stage substitutes the fallback value. -/
theorem retriedStage_fst_of_fail {α : Type} (mr d : Nat) (name : String)
    (op : Nat → AttemptOutcome α) (fb : α) (rs : RunState) (f : RetryFailure)
    (hres : (executeWithRetry mr d name op).result = .fail f) :
    (retriedStage mr d name op fb rs).1 = fb := by
  simp [retriedStage, hres]

/-- `stages_completed` only ever grows across a retried stage. -/
theorem retriedStage_sc_extends {α : Type} (mr d : Nat) (name : String)
    (op : Nat → AttemptOutcome α) (fb : α) (rs : RunState) :
    ∃ t, ((retriedStage mr d name op fb rs).2).metrics.stages_completed
      = rs.metrics.stages_completed ++ t := by
  rcases hres : (executeWithRetry mr d name op).result with a | f
  · exact ⟨[name], retriedStage_sc_of_ok mr d name op fb rs a hres⟩
  · exact ⟨[], by simp [retriedStage_sc_of_fail mr d name op fb rs f hres]⟩

/-- The retrieval step appends its own name to the invocation trace. -/
theorem retrievalStep_invoked (env : Env) (rs : RunState) :
    ((retrievalStep env rs).2).invoked = rs.invoked ++ ["retrieval"] := by
  rcases hres : (executeWithRetry env.maxRetries env.retryDelay "retrieval"
      env.retrieval).result with ps | f
  · by_cases hps : ps.isEmpty <;> simp [retrievalStep, hres, hps]
  · simp [retrievalStep, hres]

/-- The retrieval step never touches the run's retry counter. -/
theorem retrievalStep_retries (env : Env) (rs : RunState) :
    ((retrievalStep env rs).2).metrics.retries = rs.metrics.retries := by
  rcases hres : (executeWithRetry env.maxRetries env.retryDelay "retrieval"
      env.retrieval).result with ps | f
  · by_cases hps : ps.isEmpty <;> simp [retrievalStep, hres, hps]
  · simp [retrievalStep, hres]

/-- The retrieval step appends exactly the executor's recorded errors to the run's
error list. -/
theorem retrievalStep_errors (env : Env) (rs : RunState) :
    ((retrievalStep env rs).2).metrics.errors
      = rs.metrics.errors
        ++ (executeWithRetry env.maxRetries env.retryDelay "retrieval"
              env.retrieval).recorded := by
  rcases hres : (executeWithRetry env.maxRetries env.retryDelay "retrieval"
      env.retrieval).result with ps | f
  · by_cases hps : ps.isEmpty <;> simp [retrievalStep, hres, hps]
  · simp [retrievalStep, hres]

/-- When retrieval returns a non-empty list, the retrieval step succeeds and appends
`"retrieval"` to `stages_completed`. -/
theorem retrievalStep_of_ok (env : Env) (rs : RunState) (ps : List Paper)
    (hres : (executeWithRetry env.maxRetries env.retryDelay "retrieval"
        env.retrieval).result = .ok ps)
    (hne : ps ≠ []) :
    (retrievalStep env rs).1 = .ok ps
    ∧ ((retrievalStep env rs).2).metrics.stages_completed
        = rs.metrics.stages_completed ++ ["retrieval"] := by
  have hps : ps.isEmpty = false := by simp [List.isEmpty_iff, hne]
  constructor <;> simp [retrievalStep, hres, hps]

/-- When the retrieval retry exhausts, the step reports the escaping exception's
message, leaves `stages_completed` unchanged, and marks the stage `failed`. -/
theorem retrievalStep_of_fail (env : Env) (rs : RunState) (f : RetryFailure)
    (hres : (executeWithRetry env.maxRetries env.retryDelay "retrieval"
        env.retrieval).result = .fail f) :
    (retrievalStep env rs).1 = .error (failureMessage f)
    ∧ ((retrievalStep env rs).2).metrics.stages_completed
        = rs.metrics.stages_completed
    ∧ getStatus ((retrievalStep env rs).2).status "retrieval" = some "failed" := by
  refine ⟨by simp [retrievalStep, hres], by simp [retrievalStep, hres], ?_⟩
  simp [retrievalStep, hres, getStatus_setStatus]

/-- When retrieval succeeds with an empty list, the step raises the empty-result
message, leaves `stages_completed` unchanged, and marks the stage `failed`. -/
theorem retrievalStep_of_empty (env : Env) (rs : RunState)
    (hres : (executeWithRetry env.maxRetries env.retryDelay "retrieval"
        env.retrieval).result = .ok []) :
    (retrievalStep env rs).1 = .error "No papers retrieved from any source"
    ∧ ((retrievalStep env rs).2).metrics.stages_completed
        = rs.metrics.stages_completed
    ∧ getStatus ((retrievalStep env rs).2).status "retrieval" = some "failed" := by
  refine ⟨by simp [retrievalStep, hres], by simp [retrievalStep, hres], ?_⟩
  simp [retrievalStep, hres, getStatus_setStatus]

/-- `executeWithRetry` facts for a permanently failing operation: `n + 1` invocations,
no returned value, and the escaping exception decided by the final attempt. -/
theorem executeWithRetry_never_ok {α : Type} (n d : Nat) (stage : String)
    (op : Nat → AttemptOutcome α) (h : ∀ k a, op k ≠ .ok a) :
    (executeWithRetry n d stage op).attempts = n + 1
    ∧ (∀ a, (executeWithRetry n d stage op).result ≠ .ok a)
    ∧ (op n = .timeout →
        (executeWithRetry n d stage op).result = .fail (.timedOutExhausted stage (n + 1)))
    ∧ (∀ m, op n = .err m →
        (executeWithRetry n d stage op).result = .fail (.reraised m)) := by
  simpa [executeWithRetry] using retryGo_never_ok d stage op h n 0

/-- The recorded-error count of a whole retry call equals its failed attempts. -/
theorem executeWithRetry_recorded_count {α : Type} (n d : Nat) (stage : String)
    (op : Nat → AttemptOutcome α) :
    (executeWithRetry n d stage op).recorded.length
      + (if ((executeWithRetry n d stage op).result).isOk then 1 else 0)
    = (executeWithRetry n d stage op).attempts := by
  simpa [executeWithRetry] using retryGo_recorded_count d stage op n 0

/-- C1: the claim says the wait between failed attempt `k` and attempt `k + 1` is
`base_delay * 2^k`.  The code's own comment on the sleep says "Exponential backoff",
but the sleep it performs is `retry_delay * (attempt + 1)` — linear.  With
`max_retries = 3` and base delay 1 and a permanently failing operation, the sleeps are
`[1, 2, 3]`, whereas the claimed exponential schedule is `[1, 2, 4]`: they agree on the
first two waits and diverge from attempt index 2 on. -/
theorem retry_backoff_linear_not_exponential :
    (executeWithRetry 3 1 "retrieval"
        (fun _ => (.err "boom" : AttemptOutcome (List Paper)))).delays = [1, 2, 3]
    ∧ [1, 2, 3] ≠ [1 * 2 ^ 0, 1 * 2 ^ 1, 1 * 2 ^ 2] := by
  decide

/-- C2 counterexample: with `max_retries = 1` and an operation raising `"boom"` on
every attempt, the exception escaping the retry executor is the re-raised original
`"boom"`, not an exhaustion failure naming the stage and the attempt count (2). -/
theorem retry_exhaustion_reraises_original :
    (executeWithRetry 1 1 "summarization"
        (fun _ => (.err "boom" : AttemptOutcome Summaries))).result
      = .fail (.reraised "boom")
    ∧ RetryFailure.reraised "boom" ≠ .timedOutExhausted "summarization" 2 := by
  decide

/-- C2 (amended): a permanently failing operation is invoked exactly
`max_retries + 1` times and no value is returned; when the final attempt times out the
escaping exception names the stage and the attempt count, but when the final attempt
raises an ordinary error that original exception is re-raised unchanged (it names
neither the stage nor the attempt count). -/
theorem retry_exhaustion_attempts_and_signal {α : Type} (n d : Nat) (stage : String)
    (op : Nat → AttemptOutcome α) (h : ∀ k a, op k ≠ .ok a) :
    (executeWithRetry n d stage op).attempts = n + 1
    ∧ (∀ a, (executeWithRetry n d stage op).result ≠ .ok a)
    ∧ (op n = .timeout →
        (executeWithRetry n d stage op).result = .fail (.timedOutExhausted stage (n + 1)))
    ∧ (∀ m, op n = .err m →
        (executeWithRetry n d stage op).result = .fail (.reraised m)) :=
  executeWithRetry_never_ok n d stage op h

/-- C2 witness: the amended theorem applied to a concrete permanently failing
operation with `max_retries = 1`. -/
theorem retry_exhaustion_attempts_and_signal_witness :
    (executeWithRetry 1 1 "s" (fun _ => (.err "x" : AttemptOutcome Nat))).attempts
      = 1 + 1 :=
  (retry_exhaustion_attempts_and_signal 1 1 "s" (fun _ => .err "x")
    (by intro k a hk; simp at hk)).1

/-- C5 counterexample: a replacement collaborator that succeeds on the abstract
(`"ABS"`, rewritten to `"ABS [1]"`) and then raises on the section text `"SEC"` makes
the citation-replacement step return a draft different from its input: the in-place
mutation of the abstract survives the failure. -/
theorem failed_replacement_modifies_draft :
    superviseCitationReplacement repFailOnSection sampleDraft ≠ sampleDraft := by
  decide

/-- C5 (amended): the replacement step fails open only up to the replacements it has
already performed: if the very first replacer invocation (on a present, truthy
abstract) raises, the draft is returned unchanged; if the abstract invocation succeeds
and the replacer raises on the first section, the returned draft keeps the rewritten
abstract and leaves all sections and every other field unchanged. -/
theorem failed_replacement_keeps_completed_mutations
    (rep : String → Option String) (d : Draft) (a : String) :
    (d.abstract = some a → a ≠ "" → rep a = none →
      superviseCitationReplacement rep d = d)
    ∧ (∀ a' name s rest, d.abstract = some a → a ≠ "" → rep a = some a' →
        d.sections = (name, .plain s) :: rest → rep s = none →
        superviseCitationReplacement rep d = { d with abstract := some a' }) := by
  constructor
  · intro hab ha hrep
    simp [superviseCitationReplacement, hab, ha, hrep]
  · intro a' name s rest hab ha hrep hsec hfail
    simp [superviseCitationReplacement, hab, ha, hrep, hsec, replaceSectionsGo,
      replaceSectionContent, hfail]

/-- C5 witness: the amended theorem applied to a concrete draft, once with a replacer
failing on the abstract (draft unchanged) and once with `repFailOnSection` (rewritten
abstract kept, sections unchanged). -/
theorem failed_replacement_keeps_completed_mutations_witness :
    superviseCitationReplacement repAlwaysFail sampleDraft = sampleDraft
    ∧ superviseCitationReplacement repFailOnSection sampleDraft
        = { sampleDraft with abstract := some "ABS [1]" } := by
  constructor
  · exact (failed_replacement_keeps_completed_mutations repAlwaysFail sampleDraft "ABS").1
      (by decide) (by decide) (by decide)
  · exact (failed_replacement_keeps_completed_mutations repFailOnSection sampleDraft
        "ABS").2 "ABS [1]" "introduction" "SEC" []
      (by decide) (by decide) (by decide) (by decide) (by decide)

/-- C10: the `retries` counter of a run's metrics is initialized to 0 and never
incremented by any stage, whatever the environment does. -/
theorem run_retries_always_zero (env : Env) (pid query : String) :
    (runPipeline env pid query).metrics.retries = 0 := by
  rcases hstep : retrievalStep env ⟨initMetrics query, [], []⟩ with ⟨res, rs⟩
  have hr0 : rs.metrics.retries = 0 := by
    have h := retrievalStep_retries env ⟨initMetrics query, [], []⟩
    rw [hstep] at h
    simpa [initMetrics] using h
  cases res with
  | error msg => simp [runPipeline, hstep, hr0]
  | ok papers =>
    simp [runPipeline, hstep, retriedStage_retries, replacementStep, referencesStep, hr0]

/-- C4: if the retrieval retry yields no non-empty paper list (exhausted retries, or a
success whose list is empty), the run aborts: the caller gets the structured error
result carrying the pipeline id and query, `stages_completed` stays empty, and no
later stage is ever invoked. -/
theorem retrieval_failure_aborts_run (env : Env) (pid query : String)
    (h : ∀ ps, (executeWithRetry env.maxRetries env.retryDelay "retrieval"
        env.retrieval).result = .ok ps → ps = []) :
    (∃ msg, (runPipeline env pid query).result = .fatal pid query msg)
    ∧ (runPipeline env pid query).metrics.stages_completed = []
    ∧ (runPipeline env pid query).invoked = ["retrieval"] := by
  have hinv := retrievalStep_invoked env ⟨initMetrics query, [], []⟩
  rcases hres : (executeWithRetry env.maxRetries env.retryDelay "retrieval"
      env.retrieval).result with ps | f
  · have hps : ps = [] := h ps hres
    subst hps
    have he := retrievalStep_of_empty env ⟨initMetrics query, [], []⟩ hres
    rcases hstep : retrievalStep env ⟨initMetrics query, [], []⟩ with ⟨res, rs⟩
    rw [hstep] at he hinv
    obtain ⟨hfst, hsc, _⟩ := he
    simp only at hfst hsc hinv
    simp only [initMetrics] at hsc
    subst hfst
    refine ⟨⟨"No papers retrieved from any source", by simp [runPipeline, hstep]⟩, ?_, ?_⟩
    · simp [runPipeline, hstep, hsc]
    · simp [runPipeline, hstep, hinv]
  · have he := retrievalStep_of_fail env ⟨initMetrics query, [], []⟩ f hres
    rcases hstep : retrievalStep env ⟨initMetrics query, [], []⟩ with ⟨res, rs⟩
    rw [hstep] at he hinv
    obtain ⟨hfst, hsc, _⟩ := he
    simp only at hfst hsc hinv
    simp only [initMetrics] at hsc
    subst hfst
    refine ⟨⟨failureMessage f, by simp [runPipeline, hstep]⟩, ?_, ?_⟩
    · simp [runPipeline, hstep, hsc]
    · simp [runPipeline, hstep, hinv]

/-- C4 witness: the theorem applied to an environment whose retrieval attempts all
time out. -/
theorem retrieval_failure_aborts_run_witness :
    (runPipeline envRetrievalTimeout "p2" "quantum").metrics.stages_completed = []
    ∧ (runPipeline envRetrievalTimeout "p2" "quantum").invoked = ["retrieval"] := by
  have h := retrieval_failure_aborts_run envRetrievalTimeout "p2" "quantum"
    (by
      intro ps hps
      have h0 : (executeWithRetry envRetrievalTimeout.maxRetries
          envRetrievalTimeout.retryDelay "retrieval"
          envRetrievalTimeout.retrieval).result
          = .fail (.timedOutExhausted "retrieval" 4) := by decide
      rw [h0] at hps
      cases hps)
  exact ⟨h.2.1, h.2.2⟩

/-- C6 counterexample: with every retrieval attempt timing out, the stage's recorded
status after exhaustion is `"failed"`, not the distinct value `"timeout"`
(`AgentStatus.TIMEOUT` is never assigned anywhere in the supervisor). -/
theorem exhausted_timeout_status_is_failed :
    getStatus (runPipeline envRetrievalTimeout "p1" "q").status "retrieval"
      = some "failed"
    ∧ ("failed" : String) ≠ "timeout" := by
  decide

/-- C6 (amended): a timed-out attempt counts toward retries exactly like a raised
failure — a permanently failing operation is invoked `max_retries + 1` times whatever
mix of timeouts and errors it produces — but after exhaustion the recorded stage
status is `"failed"` in both cases; only the escaping exception distinguishes the
timeout mode. -/
theorem timeout_counts_like_failure_status_failed (env : Env) (pid query : String)
    (h : ∀ k ps, env.retrieval k ≠ .ok ps) :
    getStatus (runPipeline env pid query).status "retrieval" = some "failed"
    ∧ (executeWithRetry env.maxRetries env.retryDelay "retrieval"
        env.retrieval).attempts = env.maxRetries + 1 := by
  have hfacts := executeWithRetry_never_ok env.maxRetries env.retryDelay "retrieval"
    env.retrieval h
  refine ⟨?_, hfacts.1⟩
  rcases hres : (executeWithRetry env.maxRetries env.retryDelay "retrieval"
      env.retrieval).result with ps | f
  · exact absurd hres (hfacts.2.1 ps)
  · have he := retrievalStep_of_fail env ⟨initMetrics query, [], []⟩ f hres
    rcases hstep : retrievalStep env ⟨initMetrics query, [], []⟩ with ⟨res, rs⟩
    rw [hstep] at he
    obtain ⟨hfst, _, hst⟩ := he
    simp only at hfst hst
    subst hfst
    simp [runPipeline, hstep, hst]

/-- C6 witness: the amended theorem applied to the all-timeouts environment. -/
theorem timeout_counts_like_failure_status_failed_witness :
    getStatus (runPipeline envRetrievalTimeout "p1" "q").status "retrieval"
      = some "failed"
    ∧ (executeWithRetry envRetrievalTimeout.maxRetries envRetrievalTimeout.retryDelay
        "retrieval" envRetrievalTimeout.retrieval).attempts
      = envRetrievalTimeout.maxRetries + 1 :=
  timeout_counts_like_failure_status_failed envRetrievalTimeout "p1" "q"
    (by intro k ps hk; simp [envRetrievalTimeout, envAllOk] at hk)

/-- C8: when retrieval yields a non-empty paper list but the summarization retry
exhausts, the run still succeeds and reaches the analytics stage, and the summaries
field of the final result is the minimal fallback: empty `key_findings` and a one-line
thematic summary naming the paper count. -/
theorem summarization_exhaustion_continues_with_fallback (env : Env)
    (pid query : String) (ps : List Paper) (fs : RetryFailure)
    (hr : (executeWithRetry env.maxRetries env.retryDelay "retrieval"
        env.retrieval).result = .ok ps)
    (hne : ps ≠ [])
    (hs : (executeWithRetry env.maxRetries env.retryDelay "summarization"
        env.summarization).result = .fail fs) :
    (runPipeline env pid query).result.isSuccess = true
    ∧ (runPipeline env pid query).result.summariesOf
        = some (fallbackSummaries ps.length)
    ∧ (fallbackSummaries ps.length).key_findings = []
    ∧ (fallbackSummaries ps.length).thematic_summary
        = "Analysis of " ++ toString ps.length ++ " papers on the research topic."
    ∧ "analytics" ∈ (runPipeline env pid query).invoked := by
  have hok := retrievalStep_of_ok env ⟨initMetrics query, [], []⟩ ps hr hne
  have hinv := retrievalStep_invoked env ⟨initMetrics query, [], []⟩
  rcases hstep : retrievalStep env ⟨initMetrics query, [], []⟩ with ⟨res, rs1⟩
  rw [hstep] at hok hinv
  obtain ⟨hfst, _⟩ := hok
  simp only at hfst hinv
  subst hfst
  refine ⟨?_, ?_, rfl, rfl, ?_⟩
  · simp [runPipeline, hstep, PipelineResult.isSuccess]
  · simp [runPipeline, hstep, PipelineResult.summariesOf,
      retriedStage_fst_of_fail env.maxRetries env.retryDelay "summarization"
        env.summarization (fallbackSummaries ps.length) rs1 fs hs]
  · simp [runPipeline, hstep, retriedStage_invoked, replacementStep, referencesStep,
      hinv]

/-- C8 witness: the theorem applied to an environment whose summarization attempts all
raise. -/
theorem summarization_exhaustion_continues_with_fallback_witness :
    (runPipeline envSummFail "p1" "q").result.summariesOf
      = some (fallbackSummaries samplePapers.length)
    ∧ "analytics" ∈ (runPipeline envSummFail "p1" "q").invoked := by
  have h := summarization_exhaustion_continues_with_fallback envSummFail "p1" "q"
    samplePapers (.reraised "llm down") (by decide) (by decide) (by decide)
  exact ⟨h.2.1, h.2.2.2.2⟩

/-- `stages_completed` only ever grows across the retrieval step. -/
theorem retrievalStep_sc_extends (env : Env) (rs : RunState) :
    ∃ t, ((retrievalStep env rs).2).metrics.stages_completed
      = rs.metrics.stages_completed ++ t := by
  rcases hres : (executeWithRetry env.maxRetries env.retryDelay "retrieval"
      env.retrieval).result with ps | f
  · by_cases hps : ps.isEmpty
    · exact ⟨[], by simp [retrievalStep, hres, hps]⟩
    · exact ⟨["retrieval"], by simp [retrievalStep, hres, hps]⟩
  · exact ⟨[], by simp [retrievalStep, hres]⟩

/-- Membership in a conditional singleton list. -/
theorem mem_ite_singleton {x n : String} {b : Bool} :
    n ∈ (if b then [x] else ([] : List String)) ↔ b = true ∧ n = x := by
  cases b <;> simp

/-- Exact characterization of a run's final `stages_completed`: empty when retrieval
fails or returns no papers; otherwise `"retrieval"` followed by the names of exactly
those retried stages whose executor returned a value, in pipeline order. -/
theorem runPipeline_sc (env : Env) (pid query : String) :
    (runPipeline env pid query).metrics.stages_completed
      = match (executeWithRetry env.maxRetries env.retryDelay "retrieval"
            env.retrieval).result with
        | .ok ps =>
          if ps.isEmpty then []
          else
            "retrieval"
              :: ((if ((executeWithRetry env.maxRetries env.retryDelay "summarization"
                      env.summarization).result).isOk then ["summarization"] else [])
                  ++ (if ((executeWithRetry env.maxRetries env.retryDelay "citation"
                      env.citation).result).isOk then ["citation"] else [])
                  ++ (if ((executeWithRetry env.maxRetries env.retryDelay "generation"
                      env.generation).result).isOk then ["generation"] else [])
                  ++ (if ((executeWithRetry env.maxRetries env.retryDelay "analytics"
                      env.analytics).result).isOk then ["analytics"] else []))
        | .fail _ => [] := by
  rcases hres : (executeWithRetry env.maxRetries env.retryDelay "retrieval"
      env.retrieval).result with ps | f
  · cases hps : ps.isEmpty with
    | true =>
      rw [List.isEmpty_iff] at hps
      subst hps
      have he := retrievalStep_of_empty env ⟨initMetrics query, [], []⟩ hres
      rcases hstep : retrievalStep env ⟨initMetrics query, [], []⟩ with ⟨res, rs⟩
      rw [hstep] at he
      obtain ⟨hfst, hsc, _⟩ := he
      simp only at hfst hsc
      simp only [initMetrics] at hsc
      subst hfst
      simp [runPipeline, hstep, hsc, hres]
    | false =>
      have hne : ps ≠ [] := by
        intro hn
        subst hn
        simp at hps
      have hok := retrievalStep_of_ok env ⟨initMetrics query, [], []⟩ ps hres hne
      rcases hstep : retrievalStep env ⟨initMetrics query, [], []⟩ with ⟨res, rs1⟩
      rw [hstep] at hok
      obtain ⟨hfst, hsc⟩ := hok
      simp only at hfst hsc
      simp only [initMetrics, List.nil_append] at hsc
      subst hfst
      rcases h2 : (executeWithRetry env.maxRetries env.retryDelay "summarization"
          env.summarization).result with a2 | f2 <;>
        rcases h3 : (executeWithRetry env.maxRetries env.retryDelay "citation"
            env.citation).result with a3 | f3 <;>
          rcases h4 : (executeWithRetry env.maxRetries env.retryDelay "generation"
              env.generation).result with a4 | f4 <;>
            rcases h5 : (executeWithRetry env.maxRetries env.retryDelay "analytics"
                env.analytics).result with a5 | f5 <;>
              simp [runPipeline, hstep, hres, hps, hsc, replacementStep, referencesStep,
                RetryOutcome.isOk, h2, h3, h4, h5,
                retriedStage_sc_of_ok, retriedStage_sc_of_fail]
  · have he := retrievalStep_of_fail env ⟨initMetrics query, [], []⟩ f hres
    rcases hstep : retrievalStep env ⟨initMetrics query, [], []⟩ with ⟨res, rs⟩
    rw [hstep] at he
    obtain ⟨hfst, hsc, _⟩ := he
    simp only at hfst hsc
    simp only [initMetrics] at hsc
    subst hfst
    simp [runPipeline, hstep, hsc, hres]

/-- C9: a run's `stages_completed` list only ever grows (every stage step maps it to
itself plus an appended tail), every name in it belongs to a stage whose retry
executor returned a result (for retrieval, a non-empty one), and in a run where every
stage succeeds it ends as exactly the five stage names in pipeline order. -/
theorem stages_completed_growth_and_content (env : Env) (pid query : String) :
    (∀ {α : Type} (op : Nat → AttemptOutcome α) (fb : α) (name : String)
        (rs : RunState),
        ∃ t, ((retriedStage env.maxRetries env.retryDelay name op fb rs).2).metrics.stages_completed
          = rs.metrics.stages_completed ++ t)
    ∧ (∀ rs : RunState, ∃ t,
        ((retrievalStep env rs).2).metrics.stages_completed
          = rs.metrics.stages_completed ++ t)
    ∧ (∀ name ∈ (runPipeline env pid query).metrics.stages_completed,
        (name = "retrieval" ∧ ∃ ps, (executeWithRetry env.maxRetries env.retryDelay
            "retrieval" env.retrieval).result = .ok ps ∧ ps ≠ [])
        ∨ (name = "summarization" ∧ ((executeWithRetry env.maxRetries env.retryDelay
            "summarization" env.summarization).result).isOk = true)
        ∨ (name = "citation" ∧ ((executeWithRetry env.maxRetries env.retryDelay
            "citation" env.citation).result).isOk = true)
        ∨ (name = "generation" ∧ ((executeWithRetry env.maxRetries env.retryDelay
            "generation" env.generation).result).isOk = true)
        ∨ (name = "analytics" ∧ ((executeWithRetry env.maxRetries env.retryDelay
            "analytics" env.analytics).result).isOk = true))
    ∧ (∀ ps su ci dr an,
        (executeWithRetry env.maxRetries env.retryDelay "retrieval"
          env.retrieval).result = .ok ps → ps ≠ [] →
        (executeWithRetry env.maxRetries env.retryDelay "summarization"
          env.summarization).result = .ok su →
        (executeWithRetry env.maxRetries env.retryDelay "citation"
          env.citation).result = .ok ci →
        (executeWithRetry env.maxRetries env.retryDelay "generation"
          env.generation).result = .ok dr →
        (executeWithRetry env.maxRetries env.retryDelay "analytics"
          env.analytics).result = .ok an →
        (runPipeline env pid query).metrics.stages_completed
          = ["retrieval", "summarization", "citation", "generation", "analytics"]) := by
  refine ⟨fun op fb name rs => retriedStage_sc_extends _ _ _ _ _ _,
    fun rs => retrievalStep_sc_extends env rs, ?_, ?_⟩
  · intro name hn
    rw [runPipeline_sc] at hn
    rcases hres : (executeWithRetry env.maxRetries env.retryDelay "retrieval"
        env.retrieval).result with ps | f
    · rw [hres] at hn
      cases hps : ps.isEmpty with
      | true => simp [hps] at hn
      | false =>
        have hne : ps ≠ [] := by
          intro h0
          subst h0
          simp at hps
        simp only [hps, if_false, Bool.false_eq_true, List.mem_cons, List.mem_append,
          mem_ite_singleton, or_assoc] at hn
        rcases hn with rfl | ⟨h2, rfl⟩ | ⟨h3, rfl⟩ | ⟨h4, rfl⟩ | ⟨h5, rfl⟩
        · exact Or.inl ⟨rfl, ps, rfl, hne⟩
        · exact Or.inr (Or.inl ⟨rfl, h2⟩)
        · exact Or.inr (Or.inr (Or.inl ⟨rfl, h3⟩))
        · exact Or.inr (Or.inr (Or.inr (Or.inl ⟨rfl, h4⟩)))
        · exact Or.inr (Or.inr (Or.inr (Or.inr ⟨rfl, h5⟩)))
    · rw [hres] at hn
      simp at hn
  · intro ps su ci dr an hr hne hsu hci hdr han
    rw [runPipeline_sc, hr]
    have hps : ps.isEmpty = false := by simp [List.isEmpty_iff, hne]
    simp [hps, hsu, hci, hdr, han, RetryOutcome.isOk]

/-- C9 witness: the all-success conjunct applied to the environment where every stage
succeeds on its first attempt. -/
theorem stages_completed_growth_and_content_witness :
    (runPipeline envAllOk "p0" "X").metrics.stages_completed
      = ["retrieval", "summarization", "citation", "generation", "analytics"] :=
  (stages_completed_growth_and_content envAllOk "p0" "X").2.2.2 samplePapers
    sampleSummaries sampleCitations sampleDraft sampleAnalytics
    (by decide) (by decide) (by decide) (by decide) (by decide) (by decide)

/-- C3 counterexample: in a run whose summarization fails once and then succeeds, the
failed attempt's `ErrorRecord` lands in the run's own metrics (`errors` has length 1),
but the process-wide `error_history` — the list whose length `get_system_health`
reports as the total error count — stays empty (`total_errors = 0`). -/
theorem attempt_errors_not_in_process_history :
    (getSystemHealth (supervisorAfterRun emptySupervisorState "p1"
        (runPipeline envSummErrOnce "p1" "q"))).total_errors = 0
    ∧ (runPipeline envSummErrOnce "p1" "q").metrics.errors.length = 1 := by
  decide

/-- C3 (amended): every failed attempt inside the retry executor appends exactly one
`ErrorRecord` to the owning run's `errors` list in `pipeline_metrics` (the recorded
count equals the failed-attempt count, and the run's final `errors` list is exactly
the concatenation of the five stage executors' records); the process-wide
`error_history` receives nothing from a run that completes — it is appended to only
by the top-level handler of a fatally failing run. -/
theorem failed_attempts_recorded_in_run_metrics (env : Env) (pid query : String)
    (ps : List Paper)
    (hr : (executeWithRetry env.maxRetries env.retryDelay "retrieval"
        env.retrieval).result = .ok ps)
    (hne : ps ≠ []) :
    (∀ {α : Type} (n d : Nat) (stage : String) (op : Nat → AttemptOutcome α),
        (executeWithRetry n d stage op).recorded.length
          + (if ((executeWithRetry n d stage op).result).isOk then 1 else 0)
        = (executeWithRetry n d stage op).attempts)
    ∧ (runPipeline env pid query).historyAppend = []
    ∧ (runPipeline env pid query).metrics.errors
        = (executeWithRetry env.maxRetries env.retryDelay "retrieval"
            env.retrieval).recorded
          ++ (executeWithRetry env.maxRetries env.retryDelay "summarization"
              env.summarization).recorded
          ++ (executeWithRetry env.maxRetries env.retryDelay "citation"
              env.citation).recorded
          ++ (executeWithRetry env.maxRetries env.retryDelay "generation"
              env.generation).recorded
          ++ (executeWithRetry env.maxRetries env.retryDelay "analytics"
              env.analytics).recorded := by
  have hok := retrievalStep_of_ok env ⟨initMetrics query, [], []⟩ ps hr hne
  have herr := retrievalStep_errors env ⟨initMetrics query, [], []⟩
  rcases hstep : retrievalStep env ⟨initMetrics query, [], []⟩ with ⟨res, rs1⟩
  rw [hstep] at hok herr
  obtain ⟨hfst, _⟩ := hok
  simp only at hfst herr
  simp only [initMetrics, List.nil_append] at herr
  subst hfst
  refine ⟨fun n d stage op => executeWithRetry_recorded_count n d stage op, ?_, ?_⟩
  · simp [runPipeline, hstep]
  · simp [runPipeline, hstep, retriedStage_errors, replacementStep, referencesStep,
      herr, List.append_assoc]

/-- C3 witness: the amended theorem applied to the environment whose summarization
fails once and then succeeds. -/
theorem failed_attempts_recorded_in_run_metrics_witness :
    (runPipeline envSummErrOnce "p1" "q").historyAppend = []
    ∧ (runPipeline envSummErrOnce "p1" "q").metrics.errors
        = (executeWithRetry envSummErrOnce.maxRetries envSummErrOnce.retryDelay
            "retrieval" envSummErrOnce.retrieval).recorded
          ++ (executeWithRetry envSummErrOnce.maxRetries envSummErrOnce.retryDelay
              "summarization" envSummErrOnce.summarization).recorded
          ++ (executeWithRetry envSummErrOnce.maxRetries envSummErrOnce.retryDelay
              "citation" envSummErrOnce.citation).recorded
          ++ (executeWithRetry envSummErrOnce.maxRetries envSummErrOnce.retryDelay
              "generation" envSummErrOnce.generation).recorded
          ++ (executeWithRetry envSummErrOnce.maxRetries envSummErrOnce.retryDelay
              "analytics" envSummErrOnce.analytics).recorded := by
  have h := failed_attempts_recorded_in_run_metrics envSummErrOnce "p1" "q"
    samplePapers (by decide) (by decide)
  exact ⟨h.2.1, h.2.2⟩

/-- When every metrics record carries a duration, dropping the `Option` layer by
`filterMap` agrees with reading each duration with default 0. -/
theorem filterMap_totalTime_all_some (ms : List PipelineMetrics)
    (h : ∀ m ∈ ms, (m.total_time).isSome = true) :
    ms.filterMap (fun m => m.total_time) = ms.map (fun m => m.total_time.getD 0) := by
  induction ms with
  | nil => simp
  | cons hd tl ih =>
    obtain ⟨x, hx⟩ := Option.isSome_iff_exists.mp (h hd (by simp))
    simp [hx, ih (fun m hm => h m (by simp [hm]))]

/-- When no metrics record carries a duration, the summed defaulted durations are 0. -/
theorem sum_totalTime_all_none (ms : List PipelineMetrics)
    (h : ∀ m ∈ ms, m.total_time = none) :
    (ms.map (fun m => ((m.total_time.getD 0 : Nat) : ℚ))).sum = 0 := by
  induction ms with
  | nil => simp
  | cons hd tl ih =>
    have hhd := h hd (by simp)
    simp [hhd, ih (fun m hm => h m (by simp [hm]))]

/-- C7 counterexample: with one completed run (duration 10) and one aborted run (no
recorded duration), `get_system_health` reports an average of 5 — the sum of recorded
durations divided by the count of ALL runs — while the average over completed runs
alone is 10. -/
theorem average_includes_aborted_runs :
    (getSystemHealth stMixedRuns).average_processing_time = 5
    ∧ specAverageOverCompletedRuns stMixedRuns = 10
    ∧ (5 : ℚ) ≠ 10 := by
  refine ⟨?_, ?_, by norm_num⟩
  · simp [getSystemHealth, stMixedRuns]
    norm_num
  · simp [specAverageOverCompletedRuns, stMixedRuns]

/-- C7 (amended): `get_system_health` averages the recorded total durations over ALL
runs, counting a run without a recorded duration as 0; this agrees with the average
over completed runs whenever every run completed, and the reported average is 0
whenever no run has completed. -/
theorem health_average_semantics (st : SupervisorState) :
    ((∀ m ∈ st.pipeline_metrics.map Prod.snd, (m.total_time).isSome = true) →
      (getSystemHealth st).average_processing_time = specAverageOverCompletedRuns st)
    ∧ ((∀ m ∈ st.pipeline_metrics.map Prod.snd, m.total_time = none) →
      (getSystemHealth st).average_processing_time = 0) := by
  constructor
  · intro h
    have hfm := filterMap_totalTime_all_some (st.pipeline_metrics.map Prod.snd) h
    simp only [getSystemHealth, specAverageOverCompletedRuns, hfm, List.map_map,
      List.length_map]
    rfl
  · intro h
    have hsum := sum_totalTime_all_none (st.pipeline_metrics.map Prod.snd) h
    simp only [getSystemHealth, hsum]
    split <;> simp

/-- C7 witness: the amended theorem applied to a state in which every run completed. -/
theorem health_average_semantics_witness :
    (getSystemHealth stAllCompleted).average_processing_time
      = specAverageOverCompletedRuns stAllCompleted :=
  (health_average_semantics stAllCompleted).1 (by decide)
